import Mathlib

/-!
Verification of the AI-orchestration core of the task-management backend
(`backend/task/ai_service.py` and `backend/task/task_router.py`).

The Python source is shallowly embedded: strings are Lean `String`s
manipulated through their underlying `List Char`, Python `None`-able
values are `Option`s, exceptions are `Except` values, machine floats that
only ever hold small decimal constants are modelled as `ℚ` (for the
confidence field) or as exact scaled decimals (for parsed JSON numbers),
and the database session is explicit state.  Python helpers such as
`str.strip`, `str.lower`, `str.title`, `str.splitlines` and `min(..., key=...)`
are re-implemented for the character ranges the program actually handles
(ASCII text, `\n`-separated lines).
-/

/-- Python `str.lower` (ASCII case folding, which covers every string the
service compares: its keyword list and status literals are ASCII). -/
def pyLower (s : String) : String := ⟨s.data.map Char.toLower⟩

/-- Drop trailing whitespace from a character list (Python `str.rstrip`). -/
def rstripChars : List Char → List Char
  | [] => []
  | c :: cs =>
    let r := rstripChars cs
    if r = [] then (if c.isWhitespace then [] else [c]) else c :: r

/-- Python `str.strip` on the character list: leading and trailing
whitespace removed. -/
def pyStripChars (l : List Char) : List Char :=
  rstripChars (l.dropWhile Char.isWhitespace)

/-- Python `str.strip`. -/
def pyStrip (s : String) : String := ⟨pyStripChars s.data⟩

/-- Python `str.rstrip`. -/
def pyRstrip (s : String) : String := ⟨rstripChars s.data⟩

/-- Whether `pat` occurs as a contiguous run of `l`. -/
def infixAt (pat : List Char) : List Char → Bool
  | [] => pat.isEmpty
  | c :: cs => pat.isPrefixOf (c :: cs) || infixAt pat cs

/-- Python `sub in s` substring test. -/
def strContains (s sub : String) : Bool := infixAt sub.data s.data

/-- Python `sep.join(parts)`. -/
def pyJoin (sep : String) : List String → String
  | [] => ""
  | [x] => x
  | x :: xs => x ++ sep ++ pyJoin sep xs

/-- Python `len(s.splitlines())` for `\n`-separated text (the only line
separator the service ever produces: histories and prompts are built with
`"\n".join`): the number of `\n` characters, plus one more line when the
text is non-empty and does not end in `\n`. -/
def splitlinesCount (s : String) : Nat :=
  (s.data.countP (fun c => c = '\n')) +
    (match s.data.getLast? with
     | none => 0
     | some c => if c = '\n' then 0 else 1)

/-- Python `s.replace("_", " ")` for the single-character pattern used by
the prompt builder. -/
def underscoreToSpace (s : String) : String :=
  ⟨s.data.map (fun c => if c = '_' then ' ' else c)⟩

/-- Helper for `pyTitle`: the Bool records whether the previous character
was alphabetic. -/
def pyTitleAux : Bool → List Char → List Char
  | _, [] => []
  | prevAlpha, c :: cs =>
    (if c.isAlpha then (if prevAlpha then c.toLower else c.toUpper) else c) ::
      pyTitleAux c.isAlpha cs

/-- Python `str.title` (ASCII): the first letter of each alphabetic run is
upper-cased, the rest lower-cased. -/
def pyTitle (s : String) : String := ⟨pyTitleAux false s.data⟩

/-- Python truthiness of an optional string: `None` and `""` are falsy. -/
def pyTruthy : Option String → Bool
  | none => false
  | some s => s ≠ ""

/-- Python `o or ""` for an optional string. -/
def orEmpty (o : Option String) : String := o.getD ""

/-- The failure taxonomy of `ai_service.py`: `AIServiceTimeoutError`,
`AIServiceInvalidResponseError` and the base `AIServiceError`. -/
inductive AIErr where
  | timeout
  | invalidResponse
  | providerFailure
deriving DecidableEq, Repr

/-- The allowed Fibonacci story-point scale
(`allowed = [1, 2, 3, 5, 8, 13, 21]` in `ai_service.py`). -/
def allowedFib : List Int := [1, 2, 3, 5, 8, 13, 21]

/-- Python `min(xs, key=...)` semantics on a non-empty list fed as head and
tail: left fold that keeps the current minimum and replaces it only on a
strictly smaller key, so the first minimizer wins. -/
def minByKey (key : Int → Nat) (x : Int) (xs : List Int) : Int :=
  xs.foldl (fun acc y => if key y < key acc then y else acc) x

/-- Python `min(allowed, key=lambda x: abs(x - v))`. -/
def pyMinFib (v : Int) : Int :=
  minByKey (fun x => (x - v).natAbs) 1 [2, 3, 5, 8, 13, 21]

/-- `_estimate_openai`, lines 350-352: `if sp not in allowed:
sp = min(allowed, key=lambda x: abs(x - sp))`. -/
def snap (sp : Int) : Int :=
  if sp ∈ allowedFib then sp else pyMinFib sp

/-- The estimate payload assembled by the router: the fields
`_estimate_placeholder` reads.  Missing dict keys are `none`. -/
structure EstimatePayload where
  title : Option String := none
  description : Option String := none
  history : Option String := none
deriving Repr

/-- The dict returned by the estimate services:
`{story_points, confidence, rationale, method}`.  The float `confidence`
only ever holds exact decimal constants, modelled in `ℚ`. -/
structure EstimateResult where
  story_points : Int
  confidence : ℚ
  rationale : String
  method : String
deriving Repr

/-- The fixed keyword list of `_estimate_placeholder`. -/
def placeholderKeywords : List String :=
  ["auth", "login", "jwt", "database", "migration", "alembic",
   "api", "integration", "deployment", "docker"]

/-- `AIService._estimate_placeholder` (ai_service.py lines 409-443):
keyword hits against the lowered title+description, base score from the
hit count, +2 bump (capped at 13) for long history, snap to the Fibonacci
scale via Python `min`, fixed confidence 0.55 and method "placeholder". -/
def _estimate_placeholder (payload : EstimatePayload) : EstimateResult :=
  let title := pyLower (orEmpty payload.title)
  let desc := pyLower (orEmpty payload.description)
  let history := orEmpty payload.history
  let complexity_hits :=
    placeholderKeywords.countP (fun kw => strContains title kw || strContains desc kw)
  let hist_len := splitlinesCount history
  let base : Int :=
    if complexity_hits = 1 then 3
    else if complexity_hits = 2 then 5
    else if complexity_hits ≥ 3 then 8
    else 2
  let base := if hist_len > 80 then min 13 (base + 2) else base
  let sp := pyMinFib base
  { story_points := sp
    confidence := (11 : ℚ) / 20
    rationale := "Rule-based estimate using keywords + project history size."
    method := "placeholder" }

/-- The context fields `_generate_placeholder_description` reads.  Every
value is an optional string (missing dict keys are `none`; `tags` is
stored as a string column). -/
structure DescPayload where
  title : Option String := none
  description : Option String := none
  project_name : Option String := none
  tech_stack : Option String := none
  priority : Option String := none
  complexity : Option String := none
  assignee : Option String := none
  tags : Option String := none
  infrastructure : Option String := none
deriving Repr

/-- Python f-string interpolation of an optional value: `None` renders as
the four characters `None`. -/
def pyShow (o : Option String) : String := o.getD "None"

/-- The `parts` list assembled by `_generate_placeholder_description`
(ai_service.py lines 388-402): four unconditional f-strings, the truthy
extras, then two static sections. -/
def descParts (payload : DescPayload) : List String :=
  [ "Detailed task: " ++ pyShow payload.title,
    "Summary: " ++ pyShow payload.description,
    "Project context: " ++ pyShow payload.project_name,
    "Tech stack: " ++ pyShow payload.tech_stack ] ++
  ((if pyTruthy payload.priority then ["Priority: " ++ pyShow payload.priority] else []) ++
   (if pyTruthy payload.complexity then ["Complexity: " ++ pyShow payload.complexity] else []) ++
   (if pyTruthy payload.assignee then ["Assignee: " ++ pyShow payload.assignee] else []) ++
   (if pyTruthy payload.tags then ["Tags: " ++ pyShow payload.tags] else []) ++
   (if pyTruthy payload.infrastructure then ["Infrastructure: " ++ pyShow payload.infrastructure] else [])) ++
  [ "Acceptance criteria:\n- Clear and testable conditions",
    "Implementation notes:\n- Break down into small tasks\n- Add unit tests if applicable" ]

/-- `AIService._generate_placeholder_description` (ai_service.py lines
385-407): joins the parts that are non-empty and do not contain the
substring `None`, and raises `AIServiceInvalidResponseError` when the
joined content strips to the empty string.  The artificial
`time.sleep(min(0.2, timeout))` latency is irrelevant to the value and is
not modelled. -/
def _generate_placeholder_description (payload : DescPayload) : Except AIErr String :=
  let content :=
    pyJoin "\n\n" ((descParts payload).filter (fun p => p ≠ "" && !(strContains p "None")))
  if pyStrip content = "" then .error .invalidResponse else .ok content

/-- The truncation marker appended by `AIService._truncate`. -/
def TRUNC_MARKER : String := "\n\n...[TRUNCATED]..."

/-- Python `s[:k]` for an `int` bound `k` (negative bounds count from the
end). -/
def pySliceTo (l : List Char) (k : Int) : List Char :=
  if 0 ≤ k then l.take k.toNat else l.take (l.length - k.natAbs)

/-- `AIService._truncate` (ai_service.py lines 166-170): strip, return as
is when within the bound, otherwise keep the first `max_chars - 20`
characters, right-strip them, and append the explicit truncation marker. -/
def _truncate (s : String) (max_chars : Int) : String :=
  let stripped := pyStrip s
  if (stripped.data.length : Int) ≤ max_chars then stripped
  else ⟨rstripChars (pySliceTo stripped.data (max_chars - 20))⟩ ++ TRUNC_MARKER

/-- Atomic Python values appearing in the service payloads. -/
inductive PAtom where
  | anone
  | abool (b : Bool)
  | aint (n : Int)
  | astr (s : String)
deriving DecidableEq, Repr

/-- Elements of a payload list value: atoms or flat dicts (the shapes the
routers actually pass, e.g. task summary items). -/
inductive PItem where
  | iatom (a : PAtom)
  | idict (kvs : List (String × PAtom))
deriving DecidableEq, Repr

/-- A payload value: an atom, a list, or a flat dict. -/
inductive PVal where
  | vatom (a : PAtom)
  | vlist (xs : List PItem)
  | vdict (kvs : List (String × PAtom))
deriving DecidableEq, Repr

/-- Python `str(...)` of an atom. -/
def pyStrAtom : PAtom → String
  | .anone => "None"
  | .abool b => if b then "True" else "False"
  | .aint n => toString n
  | .astr s => s

/-- JSON string escaping as performed by `json.dumps(..., ensure_ascii=False)`:
quote, backslash and control characters are escaped, everything else is
passed through. -/
def jsonEscapeChar (c : Char) : List Char :=
  if c = '"' then ['\\', '"']
  else if c = '\\' then ['\\', '\\']
  else if c = '\n' then ['\\', 'n']
  else if c = '\t' then ['\\', 't']
  else if c = '\r' then ['\\', 'r']
  else if c = (Char.ofNat 8) then ['\\', 'b']
  else if c = (Char.ofNat 12) then ['\\', 'f']
  else if c.toNat < 32 then
    ['\\', 'u', '0', '0',
     (Nat.digitChar (c.toNat / 16)), (Nat.digitChar (c.toNat % 16))]
  else [c]

/-- `json.dumps` of a string. -/
def jsonDumpsStr (s : String) : String :=
  "\"" ++ ⟨s.data.flatMap jsonEscapeChar⟩ ++ "\""

/-- `json.dumps` of an atom. -/
def jsonDumpsAtom : PAtom → String
  | .anone => "null"
  | .abool b => if b then "true" else "false"
  | .aint n => toString n
  | .astr s => jsonDumpsStr s

/-- `json.dumps(d, ensure_ascii=False)` of a flat dict, with the default
`", "` and `": "` separators. -/
def jsonDumpsObj (kvs : List (String × PAtom)) : String :=
  "\x7b" ++ pyJoin ", " (kvs.map (fun kv => jsonDumpsStr kv.1 ++ ": " ++ jsonDumpsAtom kv.2)) ++ "\x7d"

/-- The inner `_fmt` helper of `_build_kv_prompt` (ai_service.py lines
176-191): `None` renders empty, lists render as a capped bulleted
sub-list (dJson elements serialized compactly), dicts serialize to JSON,
atoms stringify. -/
def _fmt : PVal → String
  | .vatom .anone => ""
  | .vlist xs =>
    let items := xs.take 200
    let out_lines := items.map (fun x =>
      match x with
      | .idict kvs => jsonDumpsObj kvs
      | .iatom a => pyStrAtom a)
    pyJoin "\n" ((out_lines.filter (fun line => pyStrip line ≠ "")).map (fun line => "- " ++ line))
  | .vdict kvs => jsonDumpsObj kvs
  | .vatom a => pyStrAtom a

/-- The joined key-value body of `_build_kv_prompt` (ai_service.py lines
193-203) before truncation: one `Human Readable Key: value` line per
non-`None`, non-empty field, joined by `\n` and stripped. -/
def kv_joined (payload : List (String × PVal)) : String :=
  let lines := payload.filterMap (fun kv =>
    match kv.2 with
    | .vatom .anone => none
    | v =>
      let s := pyStrip (_fmt v)
      if s = "" then none
      else some (pyTitle (underscoreToSpace kv.1) ++ ": " ++ s))
  pyStrip (pyJoin "\n" lines)

/-- `AIService._build_kv_prompt` (ai_service.py lines 172-204). -/
def _build_kv_prompt (payload : List (String × PVal)) (max_chars : Int) : String :=
  _truncate (kv_joined payload) max_chars

/-- A row of the `tasks` table, with `created_at` abstracted to a natural
creation index (larger = created later). -/
structure TaskRec where
  id : Int
  project_id : Int
  title : String
  status : String
  description : Option String := none
  created_at : Nat
deriving DecidableEq, Repr

/-- Stable insertion of a task into a list sorted by descending
`created_at`: the inserted (earlier) element goes before strictly older
rows and after rows that are at least as recent. -/
def insertDescCreated (t : TaskRec) : List TaskRec → List TaskRec
  | [] => [t]
  | u :: us =>
    if u.created_at > t.created_at then u :: insertDescCreated t us
    else t :: u :: us

/-- `ORDER BY created_at DESC` as a stable sort. -/
def sortDescCreated : List TaskRec → List TaskRec
  | [] => []
  | t :: ts => insertDescCreated t (sortDescCreated ts)

/-- The rendered history line for one prior task:
`f"- {t.title} | status={t.status} | desc={t.description or ''}".strip()`. -/
def historyLine (t : TaskRec) : String :=
  pyStrip ("- " ++ t.title ++ " | status=" ++ t.status ++ " | desc=" ++ orEmpty t.description)

/-- `_build_history_text` (task_router.py lines 162-183) over an explicit
table of task rows: `None` when the limit is non-positive, otherwise the
`max_history_tasks` most recent other tasks of the project (any task whose
id differs from the current one), rendered back in chronological order,
or `None` when that selection is empty. -/
def _build_history_text (db : List TaskRec) (project_id current_task_id : Int)
    (max_history_tasks : Int) : Option String :=
  if max_history_tasks ≤ 0 then none
  else
    let prev_tasks :=
      (sortDescCreated (db.filter (fun t => t.project_id = project_id ∧ t.id ≠ current_task_id))).take
        max_history_tasks.toNat
    let lines := prev_tasks.reverse.map historyLine
    if lines.isEmpty then none else some (pyJoin "\n" lines)

/-- `AIService.estimate_effort` (ai_service.py lines 93-113), with the
upstream `_estimate_openai` round trip abstracted as the `provider`
outcome (its exceptions already classified into the `AIErr` taxonomy,
matching lines 106-109): when `_should_use_openai()` is true the provider
outcome is returned or re-raised, otherwise `_estimate_placeholder` runs
locally and cannot fail. -/
def estimate_effort_service (useOpenai : Bool) (provider : Except AIErr EstimateResult)
    (payload : EstimatePayload) : Except AIErr EstimateResult :=
  if useOpenai then provider else .ok (_estimate_placeholder payload)

/-- `_fallback_placeholder_estimate` (task_router.py lines 186-189): a
fresh `AIService` forced to `provider="placeholder"`, so its
`estimate_effort` is exactly the placeholder estimator. -/
def _fallback_placeholder_estimate (payload : EstimatePayload) : EstimateResult :=
  _estimate_placeholder payload

/-- The fallback core of the router's single-task `estimate_effort`
endpoint (task_router.py lines 592-597): any `AIServiceError` subtype —
and any other exception — raised by the service call is caught and
replaced by `_fallback_placeholder_estimate` on the same payload. -/
def estimate_effort_route (useOpenai : Bool) (provider : Except AIErr EstimateResult)
    (payload : EstimatePayload) : EstimateResult :=
  match estimate_effort_service useOpenai provider payload with
  | .ok out => out
  | .error _ => _fallback_placeholder_estimate payload

/-- Project row fields the estimate payload reads. -/
structure ProjectRec where
  id : Int
  name : Option String := none
  description : Option String := none
deriving Repr

/-- One row of the batch response list (`EffortEstimateResponse`). -/
structure EffortResp where
  task_id : Int
  project_id : Int
  story_points : Int
  confidence : ℚ
  method : String
  rationale : String
deriving DecidableEq, Repr

/-- The SQLAlchemy session as the batch endpoint uses it: one running
transaction with the not-yet-committed attribute writes in `pending`;
`db.rollback()` empties `pending`, `db.commit()` moves it into
`committed`.  A pending/committed entry is `(task_id, story_points)`. -/
structure SessionState where
  pending : List (Int × Int) := []
  committed : List (Int × Int) := []
deriving DecidableEq, Repr

/-- The per-task payload built by `estimate_effort_all` (task_router.py
lines 657-666), restricted to the fields the estimators read. -/
def batchPayload (db : List TaskRec) (t : TaskRec) (project_id : Int)
    (include_history : Bool) (max_history_tasks : Int) : EstimatePayload :=
  { title := some t.title
    description := t.description
    history := if include_history then _build_history_text db project_id t.id max_history_tasks
               else none }

/-- `estimate_effort_all` (task_router.py lines 634-714) with the provider
outcome per task and the per-item persistence fault injected as oracles:
tasks of the project are visited in order, `done` tasks are skipped, each
estimate falls back to the placeholder on any service failure; the
persist block appends the attribute write to the session and the response
to the output, while a persistence failure triggers `db.rollback()` —
which discards every pending (uncommitted) write — and `continue`.  A
single `db.commit()` runs after the loop. -/
def estimate_effort_all (db : List TaskRec) (project_id : Int)
    (include_history : Bool) (max_history_tasks : Int)
    (useOpenai : Bool) (provider : TaskRec → Except AIErr EstimateResult)
    (persistFails : TaskRec → Bool) : List EffortResp × SessionState :=
  let tasks := db.filter (fun t => t.project_id = project_id)
  let step := fun (acc : List EffortResp × SessionState) (task : TaskRec) =>
    let (responses, st) := acc
    if pyLower task.status = "done" then acc
    else
      let payload := batchPayload db task project_id include_history max_history_tasks
      let out :=
        match estimate_effort_service useOpenai (provider task) payload with
        | .ok o => o
        | .error _ => _fallback_placeholder_estimate payload
      if persistFails task then
        (responses, { st with pending := [] })
      else
        (responses ++ [{ task_id := task.id, project_id := task.project_id,
                         story_points := out.story_points, confidence := out.confidence,
                         method := out.method, rationale := out.rationale }],
         { st with pending := st.pending ++ [(task.id, out.story_points)] })
  let (responses, st) := tasks.foldl step ([], {})
  (responses, { pending := [], committed := st.committed ++ st.pending })

/-- A JSON value as `json.loads` produces it.  A number is the exact
scaled decimal `mant / 10 ^ scale`; `isInt` records whether the literal
was an integer (no fraction, no exponent), i.e. whether Python builds an
`int` or a `float`. -/
inductive JVal where
  | jnull
  | jbool (b : Bool)
  | jnum (mant : Int) (scale : Nat) (isInt : Bool)
  | jstr (s : String)
  | jarr (elems : List JVal)
  | jobj (fields : List (String × JVal))
deriving Repr

/-- JSON inter-token whitespace. -/
def skipWs (l : List Char) : List Char :=
  l.dropWhile (fun c => c = ' ' || c = '\t' || c = '\n' || c = '\r')

/-- Value of a run of decimal digit characters. -/
def digitsToNat (ds : List Char) : Nat :=
  ds.foldl (fun n c => 10 * n + (c.toNat - 48)) 0

/-- Value of a hexadecimal digit character, if it is one. -/
def hexDigitVal (c : Char) : Option Nat :=
  if '0' ≤ c ∧ c ≤ '9' then some (c.toNat - 48)
  else if 'a' ≤ c ∧ c ≤ 'f' then some (c.toNat - 87)
  else if 'A' ≤ c ∧ c ≤ 'F' then some (c.toNat - 55)
  else none

/-- Assemble a parsed JSON number from its sign, digit runs and decimal
exponent. -/
def mkJNum (neg : Bool) (intD fracD : List Char) (hasFracOrExp : Bool) (exp : Int) : JVal :=
  let mant0 : Nat := digitsToNat (intD ++ fracD)
  let mant1 : Nat := if 0 ≤ exp then mant0 * 10 ^ exp.toNat else mant0
  let scale : Nat := if 0 ≤ exp then fracD.length else fracD.length + exp.natAbs
  let mant : Int := if neg then -(mant1 : Int) else (mant1 : Int)
  .jnum mant scale (!hasFracOrExp)

/-- JSON number grammar: optional minus, integer part without leading
zeros, optional fraction, optional exponent. -/
def parseNumber (l : List Char) : Option (JVal × List Char) :=
  let (neg, l1) := match l with
    | '-' :: r => (true, r)
    | _ => (false, l)
  let intD := l1.takeWhile Char.isDigit
  let r1 := l1.drop intD.length
  if intD = [] then none
  else if 1 < intD.length ∧ intD.headD '0' = '0' then none
  else
    let (fracD, r2, okFrac) :=
      match r1 with
      | '.' :: r =>
        let fd := r.takeWhile Char.isDigit
        (fd, r.drop fd.length, !fd.isEmpty)
      | _ => ([], r1, true)
    if !okFrac then none
    else
      match r2 with
      | 'e' :: rest =>
        let (esign, r3) := match rest with
          | '+' :: r => ((1 : Int), r)
          | '-' :: r => ((-1 : Int), r)
          | _ => ((1 : Int), rest)
        let expD := r3.takeWhile Char.isDigit
        if expD = [] then none
        else some (mkJNum neg intD fracD true (esign * (digitsToNat expD : Int)), r3.drop expD.length)
      | 'E' :: rest =>
        let (esign, r3) := match rest with
          | '+' :: r => ((1 : Int), r)
          | '-' :: r => ((-1 : Int), r)
          | _ => ((1 : Int), rest)
        let expD := r3.takeWhile Char.isDigit
        if expD = [] then none
        else some (mkJNum neg intD fracD true (esign * (digitsToNat expD : Int)), r3.drop expD.length)
      | _ => some (mkJNum neg intD fracD (!fracD.isEmpty) 0, r2)

/-- JSON string body after the opening quote, with the standard escapes;
raw control characters are rejected as in `json.loads` strict mode. -/
def parseStringBody : Nat → List Char → List Char → Option (String × List Char)
  | 0, _, _ => none
  | fuel + 1, l, acc =>
    match l with
    | [] => none
    | '"' :: rest => some (⟨acc.reverse⟩, rest)
    | '\\' :: 'u' :: h1 :: h2 :: h3 :: h4 :: rest =>
      match hexDigitVal h1, hexDigitVal h2, hexDigitVal h3, hexDigitVal h4 with
      | some a, some b, some c, some d =>
        parseStringBody fuel rest (Char.ofNat (((a * 16 + b) * 16 + c) * 16 + d) :: acc)
      | _, _, _, _ => none
    | '\\' :: e :: rest =>
      (match e with
       | '"' => some '"'
       | '\\' => some '\\'
       | '/' => some '/'
       | 'b' => some (Char.ofNat 8)
       | 'f' => some (Char.ofNat 12)
       | 'n' => some '\n'
       | 'r' => some '\r'
       | 't' => some '\t'
       | _ => none).bind (fun c => parseStringBody fuel rest (c :: acc))
    | c :: rest =>
      if c.toNat < 32 then none else parseStringBody fuel rest (c :: acc)

mutual

/-- JSON value parser (recursive descent, fuel-bounded). -/
def parseVal : Nat → List Char → Option (JVal × List Char)
  | 0, _ => none
  | fuel + 1, l =>
    match skipWs l with
    | 'n' :: 'u' :: 'l' :: 'l' :: rest => some (.jnull, rest)
    | 't' :: 'r' :: 'u' :: 'e' :: rest => some (.jbool true, rest)
    | 'f' :: 'a' :: 'l' :: 's' :: 'e' :: rest => some (.jbool false, rest)
    | '"' :: rest => (parseStringBody fuel rest []).map (fun p => (.jstr p.1, p.2))
    | '[' :: rest =>
      (match skipWs rest with
       | ']' :: r2 => some (.jarr [], r2)
       | r1 => (parseElems fuel r1).map (fun p => (.jarr p.1, p.2)))
    | '\x7b' :: rest =>
      (match skipWs rest with
       | '\x7d' :: r2 => some (.jobj [], r2)
       | r1 => (parseMembers fuel r1).map (fun p => (.jobj p.1, p.2)))
    | rest => parseNumber rest

/-- Comma-separated array elements up to the closing bracket. -/
def parseElems : Nat → List Char → Option (List JVal × List Char)
  | 0, _ => none
  | fuel + 1, l =>
    (parseVal fuel l).bind (fun p =>
      match skipWs p.2 with
      | ',' :: r2 => (parseElems fuel r2).map (fun q => (p.1 :: q.1, q.2))
      | ']' :: r2 => some ([p.1], r2)
      | _ => none)

/-- Comma-separated object members up to the closing brace. -/
def parseMembers : Nat → List Char → Option (List (String × JVal) × List Char)
  | 0, _ => none
  | fuel + 1, l =>
    match skipWs l with
    | '"' :: r =>
      (parseStringBody fuel r []).bind (fun pk =>
        match skipWs pk.2 with
        | ':' :: r2 =>
          (parseVal fuel r2).bind (fun pv =>
            match skipWs pv.2 with
            | ',' :: r4 => (parseMembers fuel r4).map (fun q => ((pk.1, pv.1) :: q.1, q.2))
            | '\x7d' :: r4 => some ([(pk.1, pv.1)], r4)
            | _ => none)
        | _ => none)
    | _ => none

end

/-- Python `json.loads`: parse one JSON document and require only
whitespace to remain.  The fuel `2 * length + 4` dominates the recursion
depth, which grows by at least one consumed character per level. -/
def json_loads (s : String) : Option JVal :=
  match parseVal (2 * s.data.length + 4) s.data with
  | some (v, rest) => if skipWs rest = [] then some v else none
  | none => none

/-- Whether `pre` is a prefix of `s` (character-wise). -/
def strStartsWith (s pre : String) : Bool := pre.data.isPrefixOf s.data

/-- Whether `suf` is a terminal run of `s` (character-wise). -/
def strEndsWith (s suf : String) : Bool := suf.data.reverse.isPrefixOf s.data.reverse

/-- `re.sub(r"^```(?:json)?\s*", "", s, flags=re.IGNORECASE)`: the greedy
anchored match removes a leading fence, its optional case-insensitive
`json` tag, and the following whitespace. -/
def stripLeadFence (s : String) : String :=
  if strStartsWith s "```" then
    let t : List Char := s.data.drop 3
    let t := if (t.take 4).map Char.toLower = "json".data then t.drop 4 else t
    ⟨t.dropWhile Char.isWhitespace⟩
  else s

/-- `re.sub(r"\s*```$", "", s)` for inputs without trailing whitespace
(`_json_from_text` strips its input first, so `$` can only match at the
very end): a trailing fence and the whitespace run before it are
removed. -/
def stripTrailFence (s : String) : String :=
  if strEndsWith s "```" then ⟨rstripChars (s.data.take (s.data.length - 3))⟩
  else s

/-- `re.search(r"\{.*\}", s, flags=re.DOTALL)`: the greedy leftmost match
runs from the first `\x7b` of the text to the last `\x7d` after it, or
fails when no such pair exists. -/
def braceSpan (l : List Char) : Option (List Char) :=
  let fromBrace := l.dropWhile (fun c => c ≠ '\x7b')
  let rev := fromBrace.reverse.dropWhile (fun c => c ≠ '\x7d')
  if rev.isEmpty then none else some rev.reverse

/-- The parsing attempts of `_json_from_text` on the already
fence-stripped text: direct parse, then the greedy brace span, then
`AIServiceInvalidResponseError`. -/
def jsonFromStripped (s : String) : Except AIErr JVal :=
  match json_loads s with
  | some v => .ok v
  | none =>
    match braceSpan s.data with
    | some span =>
      match json_loads (⟨span⟩ : String) with
      | some v => .ok v
      | none => .error .invalidResponse
    | none => .error .invalidResponse

/-- `AIService._json_from_text` (ai_service.py lines 226-248): strip,
reject empty input, remove code fences, try a direct parse, fall back to
the greedy brace span, and raise `AIServiceInvalidResponseError` when
nothing parses. -/
def _json_from_text (text : String) : Except AIErr JVal :=
  let s := pyStrip text
  if s = "" then .error .invalidResponse
  else jsonFromStripped (stripTrailFence (stripLeadFence s))

/-- `dict.get(k)` on a parsed JSON object; duplicate keys resolve to the
last occurrence, as in Python dict construction. -/
def jsonGet (kvs : List (String × JVal)) (k : String) : Option JVal :=
  (kvs.reverse.find? (fun p => p.1 = k)).map (fun p => p.2)

/-- Python `int(s)` on a string: strip, optional sign, non-empty run of
digits consuming the whole remainder. -/
def pyParseInt (s : String) : Option Int :=
  let l := pyStripChars s.data
  let (neg, l1) := match l with
    | '-' :: r => (true, r)
    | '+' :: r => (false, r)
    | _ => (false, l)
  if l1 ≠ [] ∧ l1.all Char.isDigit then
    some (if neg then -(digitsToNat l1 : Int) else (digitsToNat l1 : Int))
  else none

/-- Python `float(s)` on a string, for the plain decimal forms
(`[+-]?digits[.digits][e[+-]digits]`, with digits present on at least one
side of the point): strip, parse, fail otherwise. -/
def pyParseFloat (s : String) : Option ℚ :=
  let l := pyStripChars s.data
  let (neg, l1) := match l with
    | '-' :: r => (true, r)
    | '+' :: r => (false, r)
    | _ => (false, l)
  let intD := l1.takeWhile Char.isDigit
  let r1 := l1.drop intD.length
  let (fracD, r2) := match r1 with
    | '.' :: r => (r.takeWhile Char.isDigit, r.drop (r.takeWhile Char.isDigit).length)
    | _ => ([], r1)
  if intD = [] ∧ fracD = [] then none
  else
    let (expv, r3) := match r2 with
      | 'e' :: rest | 'E' :: rest =>
        (match rest with
         | '+' :: rr => (some (digitsToNat (rr.takeWhile Char.isDigit) : Int), rr)
         | '-' :: rr => (some (-(digitsToNat (rr.takeWhile Char.isDigit) : Int)), rr)
         | rr => (some (digitsToNat (rr.takeWhile Char.isDigit) : Int), rr))
      | _ => (none, r2)
    match expv with
    | some e =>
      let ed := r3.takeWhile Char.isDigit
      if ed = [] ∨ r3.drop ed.length ≠ [] then none
      else
        let base : ℚ := (if neg then -(digitsToNat (intD ++ fracD) : ℚ) else (digitsToNat (intD ++ fracD) : ℚ)) / 10 ^ fracD.length
        some (base * (10 : ℚ) ^ e)
    | none =>
      if r2 ≠ [] then none
      else some ((if neg then -(digitsToNat (intD ++ fracD) : ℚ) else (digitsToNat (intD ++ fracD) : ℚ)) / 10 ^ fracD.length)

/-- Python `int(x)` on a parsed JSON value: floats truncate toward zero,
numeric strings parse, booleans map to 0/1, everything else raises (and
the caller substitutes the default). -/
def pyIntOf : JVal → Option Int
  | .jnum mant scale _ => some (Int.tdiv mant (10 ^ scale : Nat))
  | .jstr s => pyParseInt s
  | .jbool b => some (if b then 1 else 0)
  | _ => none

/-- Python `float(x)` on a parsed JSON value. -/
def pyFloatOf : JVal → Option ℚ
  | .jnum mant scale _ => some ((mant : ℚ) / 10 ^ scale)
  | .jstr s => pyParseFloat s
  | .jbool b => some (if b then 1 else 0)
  | _ => none

/-- Python truthiness of a parsed JSON value. -/
def jvTruthy : JVal → Bool
  | .jnull => false
  | .jbool b => b
  | .jnum mant _ _ => mant ≠ 0
  | .jstr s => s ≠ ""
  | .jarr xs => !xs.isEmpty
  | .jobj kvs => !kvs.isEmpty

/-- Render a scaled decimal as Python `str(float)` renders simple
decimals: the digits with the point inserted, trailing fractional zeros
trimmed down to one. -/
def decimalString (mant : Int) (scale : Nat) : String :=
  let sign := if mant < 0 then "-" else ""
  let digits := (toString mant.natAbs).data
  let digits := if digits.length ≤ scale then
    (List.replicate (scale + 1 - digits.length) '0') ++ digits else digits
  let ipart := digits.take (digits.length - scale)
  let fpart := (digits.drop (digits.length - scale)).reverse.dropWhile (fun c => c = '0') |>.reverse
  sign ++ ⟨ipart⟩ ++ "." ++ (if fpart.isEmpty then "0" else ⟨fpart⟩)

/-- Python `str(x)` of a parsed JSON value.  Exact for the shapes the
rationale field can realistically carry (strings, `None`, booleans,
integers); floats use the plain decimal rendering and containers the JSON
rendering, which differs from CPython repr only in quote style. -/
def pyStrJVal : JVal → String
  | .jnull => "None"
  | .jbool b => if b then "True" else "False"
  | .jnum mant scale isInt => if isInt then toString mant else decimalString mant scale
  | .jstr s => s
  | .jarr xs => "[" ++ pyJoin ", " (xs.map (fun x =>
      match x with
      | .jstr s => "'" ++ s ++ "'"
      | .jnull => "None"
      | .jbool b => if b then "True" else "False"
      | .jnum m sc i => if i then toString m else decimalString m sc
      | _ => "...")) ++ "]"
  | .jobj _ => "\x7b...\x7d"

/-- The post-parse normalization of `AIService._estimate_openai`
(ai_service.py lines 332-356), taking the already parsed `data`:
`story_points` is `int(...)`-coerced with default 3, `confidence` is
`float(...)`-coerced with default 0.6 and clamped to `[0, 1]`,
`rationale` is stringified/stripped with a fixed default, `story_points`
is snapped to the Fibonacci scale, and the method tag is `"openai"`.  A
non-dict parse makes `data.get` raise `AttributeError`, which the service
wraps into the generic `AIServiceError` (lines 108-109). -/
def _estimate_openai_normalize : JVal → Except AIErr EstimateResult
  | .jobj kvs =>
    let sp_raw := jsonGet kvs "story_points"
    let conf_raw := (jsonGet kvs "confidence").getD (.jnum 6 1 false)
    let rat_raw := (jsonGet kvs "rationale").getD (.jstr "")
    let sp : Int := (sp_raw.bind pyIntOf).getD 3
    let conf : ℚ := (pyFloatOf conf_raw).getD (6 / 10)
    let rationale :=
      let r := pyStrip (pyStrJVal (if jvTruthy rat_raw then rat_raw else .jstr ""))
      if r = "" then "Estimated based on provided context." else r
    .ok { story_points := snap sp
          confidence := max 0 (min 1 conf)
          rationale := rationale
          method := "openai" }
  | _ => .error .providerFailure

/-- The structured-estimate pipeline from raw provider text:
`_json_from_text` then the field normalization. -/
def _estimate_openai_post (text : String) : Except AIErr EstimateResult :=
  (_json_from_text text).bind _estimate_openai_normalize

/-- Five tasks created in order A, B, C, D, E (E most recent), all in
project 10: the history-window example of the spec. -/
def dbChrono : List TaskRec :=
  [⟨1, 10, "A", "open", some "dA", 1⟩, ⟨2, 10, "B", "open", some "dB", 2⟩,
   ⟨3, 10, "C", "open", some "dC", 3⟩, ⟨4, 10, "D", "in_progress", some "dD", 4⟩,
   ⟨5, 10, "E", "open", some "dE", 5⟩]

/-- Three tasks where the current task (id 1) is the oldest of its
project. -/
def dbOldestCurrent : List TaskRec :=
  [⟨1, 10, "A", "open", none, 1⟩, ⟨2, 10, "B", "open", none, 2⟩,
   ⟨3, 10, "C", "open", none, 3⟩]

/-- Three open tasks of project 10 for the batch-estimate run. -/
def dbBatch : List TaskRec :=
  [⟨1, 10, "t1", "todo", none, 1⟩, ⟨2, 10, "t2", "todo", none, 2⟩,
   ⟨3, 10, "t3", "todo", none, 3⟩]

/-- The batch estimate run over `dbBatch` in which persisting task 2
fails: placeholder provider path, no history. -/
def batchRunCX : List EffortResp × SessionState :=
  estimate_effort_all dbBatch 10 false 20 false (fun _ => .error .providerFailure)
    (fun t => t.id = 2)

/-- A one-field context whose rendered line exceeds tiny bounds. -/
def ctxCX : List (String × PVal) := [("k", .vatom (.astr "aaaaaaaaaaaaaaaaaaaaaaaaa"))]

/-- A slightly longer one-field context used as a concrete witness. -/
def ctxWitness : List (String × PVal) :=
  [("k", .vatom (.astr "aaaaaaaaaaaaaaaaaaaaaaaaaaaaaa"))]

set_option maxHeartbeats 1600000 in
/-- Interval characterization of `snap`: the nearest allowed value, ties
to the lower member. -/
lemma snap_eq_intervals (x : Int) :
    snap x =
      if x ≤ 1 then 1 else if x ≤ 2 then 2 else if x ≤ 4 then 3
      else if x ≤ 6 then 5 else if x ≤ 10 then 8 else if x ≤ 17 then 13 else 21 := by
  by_cases hx : x ∈ allowedFib
  · fin_cases hx <;> decide
  · simp only [snap, hx, if_false, pyMinFib, minByKey, List.foldl]
    simp only [allowedFib, List.mem_cons, List.not_mem_nil, or_false, not_or] at hx
    split_ifs <;> omega

/-- The result of `snap` is always on the allowed scale. -/
lemma snap_mem (x : Int) : snap x ∈ allowedFib := by
  rw [snap_eq_intervals]
  split_ifs <;> decide

/-- C3: the snap-to-Fibonacci function used on story points always
returns a member of the fixed scale, is the identity on members, attains
the minimum absolute distance, resolves distance ties toward the lower
member, and in particular maps 4 to 3 and 25 to 21. -/
theorem fibonacci_snapping (x : Int) :
    snap x ∈ allowedFib ∧
    (x ∈ allowedFib → snap x = x) ∧
    (∀ y ∈ allowedFib, (snap x - x).natAbs ≤ (y - x).natAbs) ∧
    (∀ y ∈ allowedFib, (y - x).natAbs = (snap x - x).natAbs → snap x ≤ y) ∧
    snap 4 = 3 ∧ snap 25 = 21 := by
  refine ⟨snap_mem x, ?_, ?_, ?_, by decide, by decide⟩
  · intro hx
    simp [snap, hx]
  · intro y hy
    fin_cases hy <;> rw [snap_eq_intervals] <;> split_ifs <;> omega
  · intro y hy
    fin_cases hy <;> rw [snap_eq_intervals] <;> split_ifs <;> omega

/-- Witness for `fibonacci_snapping` at concrete inputs. -/
theorem fibonacci_snapping_witness :
    snap 8 = 8 ∧ snap 7 ≤ 8 := by
  refine ⟨(fibonacci_snapping 8).2.1 (by decide), ?_⟩
  exact (fibonacci_snapping 7).2.2.2.1 8 (by decide) (by decide)

/-- Python `min` over the allowed list agrees with the guarded `snap`. -/
lemma pyMinFib_eq_snap (b : Int) : pyMinFib b = snap b := by
  by_cases hb : b ∈ allowedFib
  · have h : snap b = b := by simp [snap, hb]
    rw [h]
    fin_cases hb <;> decide
  · simp [snap, hb]

/-- The base-score if-chain of `_estimate_placeholder` only produces 2,
3, 5 or 8. -/
lemma base_cases (hits : Nat) :
    (if hits = 1 then (3 : Int) else if hits = 2 then 5 else if hits ≥ 3 then 8 else 2) ∈
      ([2, 3, 5, 8] : List Int) := by
  rcases hits with _ | _ | _ | n
  · decide
  · decide
  · decide
  · have h1 : ¬(n + 1 + 1 + 1 = 1) := by omega
    have h2 : ¬(n + 1 + 1 + 1 = 2) := by omega
    have h3 : n + 1 + 1 + 1 ≥ 3 := by omega
    rw [if_neg h1, if_neg h2, if_pos h3]
    decide

/-- Snapping any reachable base score, bumped or not, lands in 2/3/5/8. -/
lemma sp_mem_of_base (base : Int) (hb : base ∈ ([2, 3, 5, 8] : List Int)) (m : Nat) :
    pyMinFib (if 80 < m then min 13 (base + 2) else base) ∈ ([2, 3, 5, 8] : List Int) := by
  by_cases hm : 80 < m
  · rw [if_pos hm]
    fin_cases hb <;> decide
  · rw [if_neg hm]
    fin_cases hb <;> decide

/-- The base-score if-chain written as the claim's explicit hit-count
mapping. -/
lemma ifchain_eq_match (hits : Nat) :
    (if hits = 1 then (3 : Int) else if hits = 2 then 5 else if hits ≥ 3 then 8 else 2) =
      (match hits with | 0 => 2 | 1 => 3 | 2 => 5 | _ => 8) := by
  rcases hits with _ | _ | _ | n
  · decide
  · decide
  · decide
  · have h1 : ¬(n + 1 + 1 + 1 = 1) := by omega
    have h2 : ¬(n + 1 + 1 + 1 = 2) := by omega
    have h3 : n + 1 + 1 + 1 ≥ 3 := by omega
    rw [if_neg h1, if_neg h2, if_pos h3]
    rfl

/-- The placeholder estimator can only produce 2, 3, 5 or 8: every
reachable base score, bumped or not, snaps into that set. -/
lemma placeholder_sp_cases (p : EstimatePayload) :
    (_estimate_placeholder p).story_points ∈ ([2, 3, 5, 8] : List Int) := by
  simp only [_estimate_placeholder]
  exact sp_mem_of_base _ (base_cases _) _

/-- C9: the placeholder effort estimator's story points are always drawn
from 2, 3, 5, 8 — never 1, 13 or 21; in particular the "capped at 13"
bump can never reach 13. -/
theorem placeholder_points_invariant (p : EstimatePayload) :
    (_estimate_placeholder p).story_points ∈ ([2, 3, 5, 8] : List Int) ∧
    (_estimate_placeholder p).story_points ≠ 1 ∧
    (_estimate_placeholder p).story_points ≠ 13 ∧
    (_estimate_placeholder p).story_points ≠ 21 := by
  have h := placeholder_sp_cases p
  simp only [List.mem_cons, List.not_mem_nil, or_false] at h
  refine ⟨placeholder_sp_cases p, ?_, ?_, ?_⟩ <;>
    (rcases h with h | h | h | h <;> rw [h] <;> decide)

/-- C7: the placeholder effort estimator is exactly the deterministic
rule of the claim: count fixed-keyword hits in the lowered
title+description, map the hit count 0/1/2/3+ to the base 2/3/5/8, bump
by 2 capped at 13 when the rendered history exceeds 80 lines, snap to
the Fibonacci scale, with fixed confidence 0.55 and method tag
"placeholder". -/
theorem placeholder_estimator_deterministic_rule (p : EstimatePayload) :
    _estimate_placeholder p =
      { story_points :=
          snap
            (let hits := placeholderKeywords.countP (fun kw =>
               strContains (pyLower (orEmpty p.title)) kw ||
               strContains (pyLower (orEmpty p.description)) kw)
             let base : Int := match hits with | 0 => 2 | 1 => 3 | 2 => 5 | _ => 8
             if 80 < splitlinesCount (orEmpty p.history) then min 13 (base + 2) else base)
        confidence := 11 / 20
        rationale := "Rule-based estimate using keywords + project history size."
        method := "placeholder" } := by
  simp only [_estimate_placeholder, pyMinFib_eq_snap, ifchain_eq_match]

/-- C1: when the provider path was selected and the provider invocation
fails with any `AIServiceError` subtype (`e` ranges over Timeout,
InvalidResponse and the generic failure), the single-task estimate route
does not propagate the exception: it re-invokes the placeholder estimator
on the same payload, and the returned result carries
`method = "placeholder"` and a Fibonacci story-point value. -/
theorem estimate_fallback_transparency (payload : EstimatePayload) (e : AIErr) :
    estimate_effort_route true (.error e) payload = _estimate_placeholder payload ∧
    (estimate_effort_route true (.error e) payload).method = "placeholder" ∧
    (estimate_effort_route true (.error e) payload).story_points ∈ allowedFib := by
  refine ⟨rfl, rfl, ?_⟩
  have h := placeholder_sp_cases payload
  simp only [List.mem_cons, List.not_mem_nil, or_false] at h
  show (_estimate_placeholder payload).story_points ∈ allowedFib
  rcases h with h | h | h | h <;> rw [h] <;> decide

/-- A non-empty character list makes a non-empty string. -/
lemma str_ne_empty (l : List Char) (h : l ≠ []) : (⟨l⟩ : String) ≠ "" :=
  fun he => h (congrArg String.data he)

/-- An occurrence survives prepending text. -/
lemma infixAt_append_left (pat t l : List Char) (h : infixAt pat l = true) :
    infixAt pat (t ++ l) = true := by
  induction t with
  | nil => simpa using h
  | cons c cs ih =>
    simp only [List.cons_append, infixAt, Bool.or_eq_true]
    exact Or.inr ih

/-- Python substring containment survives prepending text. -/
lemma strContains_append_right (t s pat : String) (h : strContains s pat = true) :
    strContains (t ++ s) pat = true := by
  simp only [strContains, String.data_append]
  exact infixAt_append_left _ _ _ h

/-- Joining a list that ends in `a` produces a string ending in `a`. -/
lemma pyJoin_append_last (sep : String) (xs : List String) (a : String) :
    ∃ t, pyJoin sep (xs ++ [a]) = t ++ a := by
  induction xs with
  | nil => exact ⟨"", by simp [pyJoin]⟩
  | cons x xs ih =>
    rcases xs with _ | ⟨y, ys⟩
    · exact ⟨x ++ sep, by simp [pyJoin]⟩
    · rcases ih with ⟨t, ht⟩
      refine ⟨x ++ sep ++ t, ?_⟩
      have hstep : pyJoin sep ((x :: y :: ys) ++ [a]) = x ++ sep ++ pyJoin sep ((y :: ys) ++ [a]) := rfl
      rw [hstep, ht]
      simp [String.append_assoc]

/-- A member that the predicate keeps survives `dropWhile`. -/
lemma mem_dropWhile_of_mem (p : Char → Bool) (c : Char) (l : List Char)
    (hm : c ∈ l) (hc : p c = false) : c ∈ l.dropWhile p := by
  induction l with
  | nil => cases hm
  | cons a l ih =>
    rw [List.dropWhile_cons]
    cases hpa : p a with
    | false => simpa using hm
    | true =>
      simp only [hpa, if_true]
      rcases List.mem_cons.mp hm with rfl | hm2
      · rw [hc] at hpa
        cases hpa
      · exact ih hm2

/-- A non-whitespace member keeps the right-strip non-empty. -/
lemma rstrip_ne_nil_of_mem (c : Char) (l : List Char)
    (hm : c ∈ l) (hc : c.isWhitespace = false) : rstripChars l ≠ [] := by
  induction l with
  | nil => cases hm
  | cons a l ih =>
    rcases List.mem_cons.mp hm with rfl | hm2
    · simp only [rstripChars]
      by_cases hr : rstripChars l = []
      · simp [hr, hc]
      · simp [hr]
    · have hr := ih hm2
      simp only [rstripChars]
      simp [hr]

/-- A non-whitespace member keeps the full strip non-empty. -/
lemma pyStripChars_ne_nil_of_mem (c : Char) (l : List Char)
    (hm : c ∈ l) (hc : c.isWhitespace = false) : pyStripChars l ≠ [] :=
  rstrip_ne_nil_of_mem c _ (mem_dropWhile_of_mem _ c l hm hc) hc

/-- The parts list always ends with the two static sections. -/
lemma descParts_shape (p : DescPayload) :
    ∃ front, descParts p = front ++
      ["Acceptance criteria:\n- Clear and testable conditions",
       "Implementation notes:\n- Break down into small tasks\n- Add unit tests if applicable"] :=
  ⟨_, rfl⟩

set_option maxRecDepth 8192 in
/-- C8 counterexample: with every input context field absent the
placeholder description generator does not raise `InvalidResponse` — the
two static sections keep the assembled document non-empty, so it returns
successfully. -/
theorem placeholder_description_cx :
    _generate_placeholder_description {} =
      .ok ("Acceptance criteria:\n- Clear and testable conditions\n\n" ++
        "Implementation notes:\n- Break down into small tasks\n- Add unit tests if applicable") ∧
    ("Acceptance criteria:\n- Clear and testable conditions\n\n" ++
        "Implementation notes:\n- Break down into small tasks\n- Add unit tests if applicable") ≠ "" := by
  exact ⟨rfl, by decide⟩

/-- C8 amended: the placeholder description generator never fails — for
every payload, even one with all fields absent, the two static sections
make the assembled document non-empty, so the empty-document
`InvalidResponse` branch (the only raise in the function) is unreachable
and the result is a non-empty document. -/
theorem placeholder_description_total (p : DescPayload) :
    ∃ s, _generate_placeholder_description p = .ok s ∧ s ≠ "" ∧ pyStrip s ≠ "" := by
  obtain ⟨front, hsh⟩ := descParts_shape p
  have hfil : (descParts p).filter (fun q => q ≠ "" && !(strContains q "None")) =
      (front.filter (fun q => q ≠ "" && !(strContains q "None")) ++
        ["Acceptance criteria:\n- Clear and testable conditions"]) ++
      ["Implementation notes:\n- Break down into small tasks\n- Add unit tests if applicable"] := by
    rw [hsh, List.filter_append]
    rw [show (["Acceptance criteria:\n- Clear and testable conditions",
        "Implementation notes:\n- Break down into small tasks\n- Add unit tests if applicable"].filter
          (fun q => q ≠ "" && !(strContains q "None"))) =
        ["Acceptance criteria:\n- Clear and testable conditions",
         "Implementation notes:\n- Break down into small tasks\n- Add unit tests if applicable"] from by decide]
    rw [show ["Acceptance criteria:\n- Clear and testable conditions",
        "Implementation notes:\n- Break down into small tasks\n- Add unit tests if applicable"] =
        ["Acceptance criteria:\n- Clear and testable conditions"] ++
        ["Implementation notes:\n- Break down into small tasks\n- Add unit tests if applicable"] from rfl]
    rw [List.append_assoc]
  obtain ⟨t, ht⟩ := pyJoin_append_last "\n\n"
    (front.filter (fun q => q ≠ "" && !(strContains q "None")) ++
      ["Acceptance criteria:\n- Clear and testable conditions"])
    "Implementation notes:\n- Break down into small tasks\n- Add unit tests if applicable"
  have hcontent : pyJoin "\n\n" ((descParts p).filter (fun q => q ≠ "" && !(strContains q "None"))) =
      t ++ "Implementation notes:\n- Break down into small tasks\n- Add unit tests if applicable" := by
    rw [hfil]
    exact ht
  have hI : ('I' : Char) ∈
      (t ++ "Implementation notes:\n- Break down into small tasks\n- Add unit tests if applicable").data := by
    rw [String.data_append]
    exact List.mem_append.mpr (Or.inr (by decide))
  have hstripne :
      pyStrip (t ++ "Implementation notes:\n- Break down into small tasks\n- Add unit tests if applicable") ≠ "" :=
    str_ne_empty _ (pyStripChars_ne_nil_of_mem 'I' _ hI (by decide))
  have hne : (t ++ "Implementation notes:\n- Break down into small tasks\n- Add unit tests if applicable") ≠ "" := by
    intro he
    rw [he] at hI
    exact absurd hI (by decide)
  refine ⟨t ++ "Implementation notes:\n- Break down into small tasks\n- Add unit tests if applicable",
    ?_, hne, hstripne⟩
  simp only [_generate_placeholder_description, hcontent]
  rw [if_neg hstripne]

/-- C10: the description generator's `"None" not in str(p)` filter drops
any section whose rendered text contains the four-character substring
`None` anywhere — a present title containing `None` is omitted exactly as
a null title is, so the output coincides with the output for the same
payload with the title absent. -/
theorem none_substring_drops_section (p : DescPayload)
    (h : strContains (pyShow p.title) "None" = true) :
    _generate_placeholder_description p =
      _generate_placeholder_description { p with title := none } := by
  have h1 : (decide (("Detailed task: " ++ pyShow p.title) ≠ "") &&
      !(strContains ("Detailed task: " ++ pyShow p.title) "None")) = false := by
    have hc := strContains_append_right "Detailed task: " (pyShow p.title) "None" h
    simp [hc]
  have h2 : (decide (("Detailed task: " ++ pyShow (none : Option String)) ≠ "") &&
      !(strContains ("Detailed task: " ++ pyShow (none : Option String)) "None")) = false := by
    decide
  have hdrop : (descParts p).filter (fun q => q ≠ "" && !(strContains q "None")) =
      (descParts { p with title := none }).filter (fun q => q ≠ "" && !(strContains q "None")) := by
    simp only [descParts, List.cons_append, List.filter_cons, h1, h2, Bool.false_eq_true, if_false]
  simp only [_generate_placeholder_description, hdrop]

/-- Witness for `none_substring_drops_section`: a title whose value
contains `None` as a substring is silently dropped, exactly like an
absent title. -/
theorem none_substring_drops_section_witness :
    _generate_placeholder_description { title := some "Handle None values" } =
      _generate_placeholder_description {} :=
  none_substring_drops_section { title := some "Handle None values" } (by decide)

/-- Inserting into the descending sort never yields the empty list. -/
lemma insertDescCreated_ne_nil (t : TaskRec) (l : List TaskRec) :
    insertDescCreated t l ≠ [] := by
  cases l with
  | nil => simp [insertDescCreated]
  | cons u us =>
    simp only [insertDescCreated]
    split_ifs <;> simp

/-- C5 counterexample: the windower does not restrict itself to items
created strictly before the current item.  With the current task the
oldest of its project, the claim requires an absent history, but the code
returns the two more recent tasks. -/
theorem history_windower_cx :
    _build_history_text dbOldestCurrent 10 1 2 =
      some "- B | status=open | desc=\n- C | status=open | desc=" ∧
    _build_history_text dbOldestCurrent 10 1 2 ≠ none := by
  constructor
  · decide
  · decide

/-- C5 amended: the history windower selects the most recent `limit`
items among the project's other tasks — excluding only the current item
itself, regardless of whether they were created before or after it —
renders them in chronological order one `- title | status=... | desc=...`
line per item, and returns absent exactly when `limit <= 0` or no other
task of the project exists; in particular, for items created in order
A,B,C,D,E with limit 2 and current item E it yields the lines for C then
D. -/
theorem history_windower_amended :
    (∀ db pid cur n, n ≤ 0 → _build_history_text db pid cur n = none) ∧
    (∀ (db : List TaskRec) pid cur n, 0 < n →
      (_build_history_text db pid cur n = none ↔
        db.filter (fun t => t.project_id = pid ∧ t.id ≠ cur) = [])) ∧
    _build_history_text dbChrono 10 5 2 =
      some "- C | status=open | desc=dC\n- D | status=in_progress | desc=dD" := by
  refine ⟨?_, ?_, by decide⟩
  · intro db pid cur n hn
    unfold _build_history_text
    rw [if_pos hn]
  · intro db pid cur n hn
    unfold _build_history_text
    rw [if_neg (by omega)]
    rcases hF : db.filter (fun t => t.project_id = pid ∧ t.id ≠ cur) with _ | ⟨a, l⟩
    · rw [hF]
      simp [sortDescCreated]
    · rw [hF]
      have hm : n.toNat = (n.toNat - 1) + 1 := by omega
      rw [hm]
      simp only [sortDescCreated]
      rcases hins : insertDescCreated a (sortDescCreated l) with _ | ⟨b, bs⟩
      · exact absurd hins (insertDescCreated_ne_nil a _)
      · rw [List.take_succ_cons]
        simp

/-- Witness for `history_windower_amended` at concrete inputs. -/
theorem history_windower_amended_witness :
    _build_history_text dbChrono 10 5 0 = none ∧
    (_build_history_text dbChrono 10 5 2 = none ↔
      dbChrono.filter (fun t => t.project_id = 10 ∧ t.id ≠ 5) = []) :=
  ⟨history_windower_amended.1 dbChrono 10 5 0 (by decide),
   history_windower_amended.2.1 dbChrono 10 5 2 (by decide)⟩

/-- C2: the batch endpoint keeps one session-wide transaction with a
single `db.commit()` after the loop, so the `db.rollback()` issued when
item 2's persistence fails also discards item 1's pending write: the call
returns responses for items 1 and 3 in order without raising, but only
item 3's estimate reaches the committed store — item 1 is reported as
succeeded yet its persisted result was undone, contradicting the
spec's per-item commit independence. -/
theorem batch_single_commit_rollback :
    batchRunCX.1.map (fun r => r.task_id) = [1, 3] ∧
    batchRunCX.1.map (fun r => r.method) = ["placeholder", "placeholder"] ∧
    batchRunCX.2.committed = [(3, 2)] ∧
    ∀ sp : Int, ((1 : Int), sp) ∉ batchRunCX.2.committed := by
  refine ⟨by decide, by decide, by decide, ?_⟩
  intro sp hmem
  rw [show batchRunCX.2.committed = [(3, 2)] from by decide] at hmem
  simp [Prod.ext_iff] at hmem

/-- The head surviving `dropWhile` fails the predicate. -/
lemma dropWhile_head_false (p : Char → Bool) (l : List Char) (c : Char) (t : List Char)
    (h : l.dropWhile p = c :: t) : p c = false := by
  induction l with
  | nil => cases h
  | cons a l ih =>
    rw [List.dropWhile_cons] at h
    cases hpa : p a with
    | true =>
      rw [hpa, if_pos rfl] at h
      exact ih h
    | false =>
      rw [hpa] at h
      simp only [Bool.false_eq_true, if_false] at h
      cases h
      exact hpa

/-- Unfolding `rstripChars` on a cons whose tail right-strips to a
non-empty list. -/
lemma rstrip_cons_of_ne (a : Char) (l : List Char) (h : rstripChars l ≠ []) :
    rstripChars (a :: l) = a :: rstripChars l := by
  simp only [rstripChars]
  rw [if_neg h]

/-- Unfolding `rstripChars` on a cons whose tail right-strips away. -/
lemma rstrip_cons_of_nil (a : Char) (l : List Char) (h : rstripChars l = []) :
    rstripChars (a :: l) = if a.isWhitespace then [] else [a] := by
  simp only [rstripChars]
  rw [if_pos h]

/-- Right-stripping preserves the head when the result is non-empty. -/
lemma rstrip_head (l : List Char) (h : rstripChars l ≠ []) :
    (rstripChars l).head? = l.head? := by
  cases l with
  | nil => rfl
  | cons a l =>
    by_cases hr : rstripChars l = []
    · rw [rstrip_cons_of_nil a l hr] at h ⊢
      by_cases ha : a.isWhitespace
      · rw [if_pos ha] at h
        exact absurd rfl h
      · rw [if_neg ha]
        rfl
    · rw [rstrip_cons_of_ne a l hr]
      rfl

/-- The last character after right-stripping is not whitespace. -/
lemma rstrip_getLast_nonws (l : List Char) (c : Char)
    (h : (rstripChars l).getLast? = some c) : c.isWhitespace = false := by
  induction l with
  | nil => cases h
  | cons a l ih =>
    by_cases hr : rstripChars l = []
    · rw [rstrip_cons_of_nil a l hr] at h
      by_cases ha : a.isWhitespace
      · rw [if_pos ha] at h
        cases h
      · rw [if_neg ha] at h
        have hca : c = a := by
          have h2 : ([a] : List Char).getLast? = some a := rfl
          rw [h2] at h
          exact (Option.some.inj h).symm
        rw [hca]
        simpa using ha
    · rw [rstrip_cons_of_ne a l hr] at h
      rcases hlr : rstripChars l with _ | ⟨b, bs⟩
      · exact absurd hlr hr
      · rw [hlr, List.getLast?_cons_cons, ← hlr] at h
        exact ih h

/-- Right-stripping a list whose last character is not whitespace is the
identity. -/
lemma rstrip_eq_self (l : List Char) (c : Char)
    (h : l.getLast? = some c) (hc : c.isWhitespace = false) : rstripChars l = l := by
  induction l with
  | nil => cases h
  | cons a l ih =>
    rcases l with _ | ⟨b, bs⟩
    · have hca : c = a := by
        have h2 : ([a] : List Char).getLast? = some a := rfl
        rw [h2] at h
        exact (Option.some.inj h).symm
      rw [rstrip_cons_of_nil a [] rfl, if_neg]
      rw [hca] at hc
      simp [hc]
    · rw [List.getLast?_cons_cons] at h
      have hr := ih h
      rw [rstrip_cons_of_ne a (b :: bs) (by rw [hr]; simp), hr]

/-- Dropping leading whitespace from a list whose head is not whitespace
is the identity. -/
lemma dropWhile_ws_eq_self (l : List Char) (c : Char)
    (h : l.head? = some c) (hc : c.isWhitespace = false) :
    l.dropWhile Char.isWhitespace = l := by
  cases l with
  | nil => cases h
  | cons a t =>
    simp only [List.head?_cons, Option.some.injEq] at h
    subst h
    rw [List.dropWhile_cons, hc]
    simp

/-- Stripping a list with non-whitespace head and last characters is the
identity. -/
lemma pyStripChars_eq_self (l : List Char) (c d : Char)
    (hh : l.head? = some c) (hc : c.isWhitespace = false)
    (hl : l.getLast? = some d) (hd : d.isWhitespace = false) :
    pyStripChars l = l := by
  unfold pyStripChars
  rw [dropWhile_ws_eq_self l c hh hc]
  exact rstrip_eq_self l d hl hd

/-- The head after a full strip is not whitespace. -/
lemma pyStripChars_head_nonws (l : List Char) (c : Char) (t : List Char)
    (h : pyStripChars l = c :: t) : c.isWhitespace = false := by
  unfold pyStripChars at h
  have hne : rstripChars (l.dropWhile Char.isWhitespace) ≠ [] := by
    rw [h]
    exact List.cons_ne_nil c t
  have hhead := rstrip_head _ hne
  rw [h] at hhead
  rcases hd : l.dropWhile Char.isWhitespace with _ | ⟨b, bs⟩
  · rw [hd] at hhead
    cases hhead
  · rw [hd] at hhead
    simp only [List.head?_cons, Option.some.injEq] at hhead
    have := dropWhile_head_false Char.isWhitespace l b bs hd
    rw [hhead]
    exact this

/-- Stripping is idempotent at the character level. -/
lemma pyStripChars_idem (l : List Char) : pyStripChars (pyStripChars l) = pyStripChars l := by
  rcases h : pyStripChars l with _ | ⟨c, t⟩
  · rfl
  · have hc : c.isWhitespace = false := pyStripChars_head_nonws l c t h
    rcases hlast : (c :: t).getLast? with _ | d
    · simp [List.getLast?_eq_none_iff] at hlast
    · have hd : d.isWhitespace = false := by
        apply rstrip_getLast_nonws (l.dropWhile Char.isWhitespace) d
        unfold pyStripChars at h
        rw [h]
        exact hlast
      exact pyStripChars_eq_self (c :: t) c d rfl hc hlast hd

/-- Stripping is idempotent. -/
lemma pyStrip_idem (s : String) : pyStrip (pyStrip s) = pyStrip s :=
  congrArg String.mk (pyStripChars_idem s.data)

/-- Right-stripping keeps at most the input length. -/
lemma rstrip_length_le (l : List Char) : (rstripChars l).length ≤ l.length := by
  induction l with
  | nil => simp [rstripChars]
  | cons a l ih =>
    by_cases hr : rstripChars l = []
    · rw [rstrip_cons_of_nil a l hr]
      by_cases ha : a.isWhitespace
      · rw [if_pos ha]
        simp
      · rw [if_neg ha]
        simp [Nat.succ_le_succ]
    · rw [rstrip_cons_of_ne a l hr]
      simp only [List.length_cons]
      omega

/-- Right-stripping past a non-whitespace head keeps the head. -/
lemma rstrip_cons_nonws (c : Char) (l : List Char) (hc : c.isWhitespace = false) :
    rstripChars (c :: l) = c :: rstripChars l := by
  simp only [rstripChars]
  by_cases hr : rstripChars l = []
  · simp [hr, hc]
  · simp [hr]

/-- The last element of an append with a non-empty right part. -/
lemma getLast_append_right (a b : List Char) (hb : b ≠ []) :
    (a ++ b).getLast? = b.getLast? := by
  induction a with
  | nil => rfl
  | cons x xs ih =>
    rcases hab : xs ++ b with _ | ⟨y, ys⟩
    · rcases List.append_eq_nil.mp hab with ⟨-, h2⟩
      exact absurd h2 hb
    · rw [List.cons_append, hab, List.getLast?_cons_cons, ← hab, ih]

/-- The character data of a stripped string. -/
lemma pyStrip_data (s : String) : (pyStrip s).data = pyStripChars s.data := rfl

/-- Truncation is idempotent at any bound of at least 21: re-truncating
`_truncate s N` at the same `N` returns it unchanged. -/
lemma truncate_idem (s : String) (N : Int) (hN : 21 ≤ N) :
    _truncate (_truncate s N) N = _truncate s N := by
  by_cases hlen : (((pyStrip s).data.length : Int)) ≤ N
  · have h1 : _truncate s N = pyStrip s := by
      unfold _truncate
      rw [if_pos hlen]
    rw [h1]
    unfold _truncate
    rw [pyStrip_idem]
    rw [if_pos hlen]
  · have h1 : _truncate s N = ⟨rstripChars (pySliceTo (pyStrip s).data (N - 20))⟩ ++ TRUNC_MARKER := by
      unfold _truncate
      rw [if_neg hlen]
    rw [h1]
    rcases hP : (pyStrip s).data with _ | ⟨c, rest⟩
    · rw [hP] at hlen
      simp at hlen
      omega
    · have hc : c.isWhitespace = false := pyStripChars_head_nonws s.data c rest hP
      have hslice : pySliceTo (c :: rest) (N - 20) = (c :: rest).take (N - 20).toNat := by
        unfold pySliceTo
        rw [if_pos (by omega)]
      have hm : (N - 20).toNat = ((N - 20).toNat - 1) + 1 := by omega
      rw [hslice, hm, List.take_succ_cons, rstrip_cons_nonws c _ hc]
      have hXlen : (c :: rstripChars (rest.take ((N - 20).toNat - 1))).length ≤ (N - 20).toNat := by
        simp only [List.length_cons]
        have h1 := rstrip_length_le (rest.take ((N - 20).toNat - 1))
        have h2 := List.length_take_le ((N - 20).toNat - 1) rest
        omega
      have hdata : ((⟨c :: rstripChars (rest.take ((N - 20).toNat - 1))⟩ : String) ++ TRUNC_MARKER).data =
          (c :: rstripChars (rest.take ((N - 20).toNat - 1))) ++ TRUNC_MARKER.data := by
        rw [String.data_append]
      have hhead : ((c :: rstripChars (rest.take ((N - 20).toNat - 1))) ++ TRUNC_MARKER.data).head? = some c := rfl
      have hlast : ((c :: rstripChars (rest.take ((N - 20).toNat - 1))) ++ TRUNC_MARKER.data).getLast? = some '.' := by
        rw [getLast_append_right _ _ (by decide)]
        decide
      have hstrip : pyStripChars ((c :: rstripChars (rest.take ((N - 20).toNat - 1))) ++ TRUNC_MARKER.data) =
          (c :: rstripChars (rest.take ((N - 20).toNat - 1))) ++ TRUNC_MARKER.data :=
        pyStripChars_eq_self _ c '.' hhead hc hlast (by decide)
      have hlen2 : (((pyStrip ((⟨c :: rstripChars (rest.take ((N - 20).toNat - 1))⟩ : String) ++ TRUNC_MARKER)).data.length : Int)) ≤ N := by
        rw [pyStrip_data, hdata, hstrip, List.length_append]
        have hml : TRUNC_MARKER.data.length = 19 := by decide
        rw [hml]
        have htn : ((N - 20).toNat : Int) = N - 20 := by omega
        omega
      unfold _truncate
      rw [if_pos hlen2]
      apply congrArg String.mk (?_ : _ = ((⟨c :: rstripChars (rest.take ((N - 20).toNat - 1))⟩ : String) ++ TRUNC_MARKER).data)
      rw [hdata]
      exact hstrip

/-- Either no truncation happened (the result is the stripped input) or
the result carries the explicit trailing marker. -/
lemma truncate_cases (s : String) (N : Int) :
    _truncate s N = pyStrip s ∨ ∃ pre : String, _truncate s N = pre ++ TRUNC_MARKER := by
  unfold _truncate
  by_cases h : (((pyStrip s).data.length : Int)) ≤ N
  · left
    rw [if_pos h]
  · right
    refine ⟨⟨rstripChars (pySliceTo (pyStrip s).data (N - 20))⟩, ?_⟩
    rw [if_neg h]

/-- C4 counterexample: at the bound N = 20 the slice `s[:N-20]` is empty
and the truncated output starts with the marker's leading newlines, so
re-truncating strips them off and the output changes — truncation is not
idempotent at every bound. -/
theorem context_truncation_cx :
    _truncate (_build_kv_prompt ctxCX 20) 20 ≠ _build_kv_prompt ctxCX 20 := by
  decide

/-- C4 amended: the context-builder truncation is idempotent at every
fixed bound N of at least 21 (the marker of length 19 plus a non-empty
stripped prefix keeps the re-strip and the length check stable; at
bounds of 20 or below the re-truncation can alter the string), and any
output that was actually shortened carries the explicit trailing marker
`...[TRUNCATED]...`, so truncation is never silent. -/
theorem context_truncation_amended (payload : List (String × PVal)) (N : Int) (hN : 21 ≤ N) :
    _truncate (_build_kv_prompt payload N) N = _build_kv_prompt payload N ∧
    (_build_kv_prompt payload N = kv_joined payload ∨
      ∃ pre : String, _build_kv_prompt payload N = pre ++ TRUNC_MARKER) := by
  constructor
  · exact truncate_idem (kv_joined payload) N hN
  · have h := truncate_cases (kv_joined payload) N
    rcases h with h | h
    · left
      rw [show _build_kv_prompt payload N = _truncate (kv_joined payload) N from rfl, h]
      show pyStrip (pyStrip _) = pyStrip _
      exact pyStrip_idem _
    · right
      exact h

/-- Witness for `context_truncation_amended`: a context whose rendered
line exceeds the bound 25, truncated and re-truncated at 25. -/
theorem context_truncation_witness :
    _truncate (_build_kv_prompt ctxWitness 25) 25 = _build_kv_prompt ctxWitness 25 :=
  (context_truncation_amended ctxWitness 25 (by decide)).1

/-- Appending a trailing whitespace character does not change the
right-strip. -/
lemma rstrip_append_ws (l : List Char) (c : Char) (hc : c.isWhitespace = true) :
    rstripChars (l ++ [c]) = rstripChars l := by
  induction l with
  | nil =>
    show rstripChars [c] = []
    rw [rstrip_cons_of_nil c [] rfl, if_pos hc]
  | cons a as ih =>
    rw [List.cons_append]
    by_cases hr : rstripChars (as ++ [c]) = []
    · rw [rstrip_cons_of_nil a _ hr, rstrip_cons_of_nil a as (by rw [← ih]; exact hr)]
    · rw [rstrip_cons_of_ne a _ hr, ih, rstrip_cons_of_ne a as (by rw [← ih]; exact hr)]

/-- `dropWhile` passes over a block that satisfies the predicate
throughout. -/
lemma dropWhile_append_all (p : Char → Bool) (l₁ l₂ : List Char)
    (h : ∀ c ∈ l₁, p c = true) : (l₁ ++ l₂).dropWhile p = l₂.dropWhile p := by
  induction l₁ with
  | nil => rfl
  | cons a as ih =>
    rw [List.cons_append, List.dropWhile_cons, h a (List.mem_cons_self a as), if_pos rfl]
    exact ih (fun c hc => h c (List.mem_cons_of_mem a hc))

/-- The greedy `\{.*\}` match: on a text decomposed as brace-free prefix,
an opening brace, a middle, a closing brace and a closing-brace-free
suffix, `braceSpan` returns the run from that first opening brace through
that last closing brace. -/
lemma braceSpan_spec (pre mid post : List Char)
    (hpre : '\x7b' ∉ pre) (hpost : '\x7d' ∉ post) :
    braceSpan (pre ++ '\x7b' :: (mid ++ '\x7d' :: post)) = some ('\x7b' :: (mid ++ ['\x7d'])) := by
  simp only [braceSpan]
  have h1 : (pre ++ '\x7b' :: (mid ++ '\x7d' :: post)).dropWhile (fun c => c ≠ '\x7b') =
      '\x7b' :: (mid ++ '\x7d' :: post) := by
    rw [dropWhile_append_all _ pre _ (fun c hc => by
      have hcne : c ≠ '\x7b' := fun heq => hpre (heq ▸ hc)
      simpa using hcne)]
    rw [List.dropWhile_cons]
    simp
  rw [h1]
  have h2 : ('\x7b' :: (mid ++ '\x7d' :: post)).reverse =
      post.reverse ++ ('\x7d' :: (mid.reverse ++ ['\x7b'])) := by
    rw [List.reverse_cons, List.reverse_append, List.reverse_cons]
    simp [List.append_assoc]
  rw [h2]
  rw [dropWhile_append_all _ post.reverse _ (fun c hc => by
      have hcm : c ∈ post := List.mem_reverse.mp hc
      have hcne : c ≠ '\x7d' := fun heq => hpost (heq ▸ hcm)
      simpa using hcne)]
  rw [List.dropWhile_cons]
  simp [List.reverse_append]

set_option maxHeartbeats 3200000 in
/-- Fencing equivalence: wrapping a stripped, unfenced, non-empty payload
in a ```json fence parses identically to the bare payload. -/
lemma fence_strip_eq (j : String) (hstrip : pyStrip j = j) (hne : j ≠ "")
    (hs : strStartsWith j "```" = false) (he : strEndsWith j "```" = false) :
    _json_from_text ("```json\n" ++ j ++ "\n```") = _json_from_text j := by
  have hsd : pyStripChars j.data = j.data := congrArg String.data hstrip
  have hdne : j.data ≠ [] := by
    intro hd
    apply hne
    show j = ""
    have heta : j = (⟨j.data⟩ : String) := rfl
    rw [heta, hd]
  rcases hP : j.data with _ | ⟨c, rest⟩
  · exact absurd hP hdne
  · have hc : c.isWhitespace = false := by
      apply pyStripChars_head_nonws j.data c rest
      rw [hsd, hP]
    obtain ⟨d, hd⟩ : ∃ d, j.data.getLast? = some d := by
      rcases hL : j.data.getLast? with _ | d
      · rw [List.getLast?_eq_none_iff] at hL
        exact absurd hL hdne
      · exact ⟨d, rfl⟩
    have hdn : d.isWhitespace = false := by
      apply rstrip_getLast_nonws (j.data.dropWhile Char.isWhitespace) d
      show (pyStripChars j.data).getLast? = some d
      rw [hsd]
      exact hd
    have hlead : stripLeadFence ("```json\n" ++ j ++ "\n```") =
        (⟨(j.data ++ ('\n' :: '`' :: '`' :: '`' :: [])).dropWhile Char.isWhitespace⟩ : String) := rfl
    have hdw : (j.data ++ ('\n' :: '`' :: '`' :: '`' :: [])).dropWhile Char.isWhitespace =
        j.data ++ ('\n' :: '`' :: '`' :: '`' :: []) := by
      apply dropWhile_ws_eq_self _ c _ hc
      rw [hP]
      rfl
    have hrev : strEndsWith (⟨j.data ++ ('\n' :: '`' :: '`' :: '`' :: [])⟩ : String) "```" = true := by
      show ("```".data.reverse.isPrefixOf (j.data ++ ('\n' :: '`' :: '`' :: '`' :: [])).reverse) = true
      rw [List.reverse_append]
      rfl
    have htake : (j.data ++ ('\n' :: '`' :: '`' :: '`' :: [])).take
        ((j.data ++ ('\n' :: '`' :: '`' :: '`' :: [])).length - 3) = j.data ++ ['\n'] := by
      rw [List.length_append]
      rw [show j.data.length + ('\n' :: '`' :: '`' :: '`' :: ([] : List Char)).length - 3 =
          j.data.length + 1 from by simp]
      rw [List.take_append_eq_append_take, List.take_of_length_le (by omega),
        show j.data.length + 1 - j.data.length = 1 from by omega]
      rfl
    have htrail : stripTrailFence (⟨j.data ++ ('\n' :: '`' :: '`' :: '`' :: [])⟩ : String) = j := by
      unfold stripTrailFence
      rw [if_pos hrev]
      show (⟨rstripChars ((j.data ++ ('\n' :: '`' :: '`' :: '`' :: [])).take
          ((j.data ++ ('\n' :: '`' :: '`' :: '`' :: [])).length - 3))⟩ : String) = j
      rw [htake, rstrip_append_ws j.data '\n' rfl, rstrip_eq_self j.data d hd hdn]
    have hfenced : stripTrailFence (stripLeadFence ("```json\n" ++ j ++ "\n```")) = j := by
      rw [hlead,
        show (⟨(j.data ++ ('\n' :: '`' :: '`' :: '`' :: [])).dropWhile Char.isWhitespace⟩ : String) =
          (⟨j.data ++ ('\n' :: '`' :: '`' :: '`' :: [])⟩ : String) from congrArg String.mk hdw]
      exact htrail
    have hShead : ("```json\n" ++ j ++ "\n```").data.head? = some '`' := rfl
    have hSlast : ("```json\n" ++ j ++ "\n```").data.getLast? = some '`' := by
      rw [show ("```json\n" ++ j ++ "\n```").data = ("```json\n".data ++ j.data) ++ "\n```".data from by
        rw [String.data_append, String.data_append]]
      rw [getLast_append_right _ _ (by decide)]
      rfl
    have hSstrip : pyStrip ("```json\n" ++ j ++ "\n```") = ("```json\n" ++ j ++ "\n```") := by
      have h2 : pyStripChars ("```json\n" ++ j ++ "\n```").data = ("```json\n" ++ j ++ "\n```").data :=
        pyStripChars_eq_self _ '`' '`' hShead (by decide) hSlast (by decide)
      exact congrArg String.mk h2
    have hSne : ("```json\n" ++ j ++ "\n```") ≠ "" := by
      intro hEq
      have hdataeq := congrArg String.data hEq
      rw [show ("```json\n" ++ j ++ "\n```").data =
          '`' :: '`' :: '`' :: 'j' :: 's' :: 'o' :: 'n' :: '\n' ::
            (j.data ++ ('\n' :: '`' :: '`' :: '`' :: [])) from rfl] at hdataeq
      cases hdataeq
    have hleadr : stripLeadFence j = j := by
      unfold stripLeadFence
      rw [if_neg (by rw [hs]; exact Bool.false_ne_true)]
    have htrailr : stripTrailFence j = j := by
      unfold stripTrailFence
      rw [if_neg (by rw [he]; exact Bool.false_ne_true)]
    have hdef : ∀ (t : String), pyStrip t ≠ "" →
        _json_from_text t = jsonFromStripped (stripTrailFence (stripLeadFence (pyStrip t))) := by
      intro t ht
      show (if pyStrip t = "" then Except.error AIErr.invalidResponse
        else jsonFromStripped (stripTrailFence (stripLeadFence (pyStrip t)))) = _
      rw [if_neg ht]
    rw [hdef ("```json\n" ++ j ++ "\n```") (by rw [hSstrip]; exact hSne),
      hdef j (by rw [hstrip]; exact hne)]
    rw [hSstrip, hstrip, hfenced, hleadr, htrailr]

/-- `_json_from_text` on a non-empty stripped input is the fence-stripped
parsing core. -/
lemma json_from_text_unfold (t : String) (ht : pyStrip t ≠ "") :
    _json_from_text t = jsonFromStripped (stripTrailFence (stripLeadFence (pyStrip t))) := by
  show (if pyStrip t = "" then Except.error AIErr.invalidResponse
    else jsonFromStripped (stripTrailFence (stripLeadFence (pyStrip t)))) = _
  rw [if_neg ht]

/-- The rationale coercion produces a non-empty, trimmed string. -/
lemma rationale_core (Y : String) :
    (if pyStrip Y = "" then "Estimated based on provided context." else pyStrip Y) ≠ "" ∧
    pyStrip (if pyStrip Y = "" then "Estimated based on provided context." else pyStrip Y) =
      (if pyStrip Y = "" then "Estimated based on provided context." else pyStrip Y) := by
  by_cases h : pyStrip Y = ""
  · rw [if_pos h]
    exact ⟨by decide, by decide⟩
  · rw [if_neg h]
    exact ⟨h, pyStrip_idem Y⟩

/-- C6 amended: the structured-response parser strips code fences (a
fenced JSON payload parses identically to the same payload unfenced); on
direct-parse failure it extracts the greedy span from the first opening
brace through the last closing brace — not the first balanced span — and
parses that; it raises InvalidResponse whenever no structured payload can
be recovered (the only error it raises); and after a successful parse it
coerces story_points to int (default 3 on coercion failure or absence,
then snapped to the Fibonacci scale), confidence to float clamped to
[0, 1] (default 0.6 on failure or absence), and rationale to a trimmed
non-empty string with the fixed default. -/
theorem structured_parser_amended :
    (∀ j : String, pyStrip j = j → j ≠ "" → strStartsWith j "```" = false →
      strEndsWith j "```" = false →
      _json_from_text ("```json\n" ++ j ++ "\n```") = _json_from_text j) ∧
    (∀ pre mid post : List Char, '\x7b' ∉ pre → '\x7d' ∉ post →
      braceSpan (pre ++ '\x7b' :: (mid ++ '\x7d' :: post)) = some ('\x7b' :: (mid ++ ['\x7d']))) ∧
    (∀ text : String,
      (∃ v, _json_from_text text = .ok v) ∨ _json_from_text text = .error .invalidResponse) ∧
    (∀ kvs : List (String × JVal), ∃ r, _estimate_openai_normalize (.jobj kvs) = .ok r ∧
      r.story_points = snap (((jsonGet kvs "story_points").bind pyIntOf).getD 3) ∧
      r.story_points ∈ allowedFib ∧
      (jsonGet kvs "story_points" = none → r.story_points = 3) ∧
      r.confidence =
        max 0 (min 1 ((pyFloatOf ((jsonGet kvs "confidence").getD (.jnum 6 1 false))).getD (6 / 10))) ∧
      0 ≤ r.confidence ∧ r.confidence ≤ 1 ∧
      (jsonGet kvs "confidence" = none → r.confidence = 3 / 5) ∧
      r.rationale ≠ "" ∧ pyStrip r.rationale = r.rationale ∧
      (jsonGet kvs "rationale" = none → r.rationale = "Estimated based on provided context.") ∧
      r.method = "openai") := by
  refine ⟨fence_strip_eq, braceSpan_spec, ?_, ?_⟩
  · intro text
    by_cases h0 : pyStrip text = ""
    · right
      show (if pyStrip text = "" then Except.error AIErr.invalidResponse
        else jsonFromStripped (stripTrailFence (stripLeadFence (pyStrip text)))) = _
      rw [if_pos h0]
    · rw [json_from_text_unfold text h0]
      rcases h1 : json_loads (stripTrailFence (stripLeadFence (pyStrip text))) with _ | v
      · rcases h2 : braceSpan (stripTrailFence (stripLeadFence (pyStrip text))).data with _ | span
        · right
          simp only [jsonFromStripped, h1, h2]
        · rcases h3 : json_loads (⟨span⟩ : String) with _ | v2
          · right
            simp only [jsonFromStripped, h1, h2, h3]
          · left
            exact ⟨v2, by simp only [jsonFromStripped, h1, h2, h3]⟩
      · left
        exact ⟨v, by simp only [jsonFromStripped, h1]⟩
  · intro kvs
    refine ⟨_, rfl, rfl, snap_mem _, ?_, rfl, le_max_left 0 _,
      max_le (by norm_num) (min_le_left 1 _), ?_, ?_, ?_, ?_, rfl⟩
    · intro h
      show snap (((jsonGet kvs "story_points").bind pyIntOf).getD 3) = 3
      rw [h]
      decide
    · intro h
      show max 0 (min 1 ((pyFloatOf ((jsonGet kvs "confidence").getD (.jnum 6 1 false))).getD (6 / 10))) =
        3 / 5
      rw [h]
      show max 0 (min 1 ((pyFloatOf (.jnum 6 1 false)).getD (6 / 10))) = 3 / 5
      have hv : (pyFloatOf (.jnum 6 1 false)).getD (6 / 10) = 3 / 5 := by
        show ((6 : ℚ) / 10 ^ 1) = 3 / 5
        norm_num
      rw [hv, min_eq_right (by norm_num), max_eq_right (by norm_num)]
    · exact (rationale_core _).1
    · exact (rationale_core _).2
    · intro h
      show (if pyStrip (pyStrJVal (if jvTruthy ((jsonGet kvs "rationale").getD (.jstr "")) then
          (jsonGet kvs "rationale").getD (.jstr "") else .jstr "")) = ""
        then "Estimated based on provided context."
        else pyStrip (pyStrJVal (if jvTruthy ((jsonGet kvs "rationale").getD (.jstr "")) then
          (jsonGet kvs "rationale").getD (.jstr "") else .jstr ""))) =
          "Estimated based on provided context."
      rw [h]
      decide

/-- C6 counterexample: on input with two brace blocks the greedy span
runs from the first opening brace to the LAST closing brace, which is not
valid JSON, so the parser raises InvalidResponse even though the first
balanced span alone parses — the parser does not extract "only the first
brace span". -/
theorem structured_parser_cx :
    _json_from_text "note \x7b\"a\": 1\x7d and \x7b\"b\": 2\x7d" = .error .invalidResponse ∧
    (json_loads "\x7b\"a\": 1\x7d").isSome = true :=
  ⟨rfl, rfl⟩

/-- Witness for `structured_parser_amended` at a concrete fenced
payload. -/
theorem structured_parser_witness :
    _json_from_text ("```json\n" ++ "\x7b\"a\": 1\x7d" ++ "\n```") =
      _json_from_text "\x7b\"a\": 1\x7d" :=
  structured_parser_amended.1 "\x7b\"a\": 1\x7d" (by decide) (by decide) (by decide) (by decide)
